import Mathlib

/-!
Verification of `resyncinator.py` against its specification.

The development shallowly embeds the pure content of the script:

* the arithmetic of line 25 (`int(framerate * abs(delay_ms) / 1000.0)`),
  including the binary64 double-precision rounding that Python performs
  when an integer is divided by the float literal `1000.0`, and the
  `OverflowError` CPython raises when the product reaches the binary64
  range (the `...Checked` definitions);
* `apply_offset` (lines 14-49) over a record model of the `wave` module's
  view of a WAV file;
* `gather_vgs_files` (lines 52-77) over paths modelled as segment lists;
* `repack_ark` (lines 138-155), the per-asset body of `process_vgs_files`
  (lines 96-120), and the archive-unit loop of `main` (lines 409-425),
  with external-tool invocations as oracles and Python exception
  propagation made explicit.
-/

/-! ## Binary64 model for line 25

Line 25 of the source computes `int(framerate * abs(delay_ms) / 1000.0)`.
`framerate * abs(delay_ms)` is exact integer arithmetic; dividing it by
the float `1000.0` first converts the integer to a binary64 double
(round-to-nearest, ties-to-even) and then performs a correctly rounded
binary64 division; `int(...)` truncates toward zero (= floor, the value
being nonnegative).  The functions below model exactly that pipeline. -/

/-- Nearest integer to `num / den`, ties going to the even integer
(round-half-even, the IEEE-754 default rounding). -/
def roundHE (num den : ℕ) : ℕ :=
  let m := num / den
  let r := num % den
  if 2 * r < den then m
  else if den < 2 * r then m + 1
  else if m % 2 = 0 then m else m + 1

/-- Fuelled bit-length recursion; `fuel ≥ n` suffices since the argument
halves each step. -/
def bitlenAux : ℕ → ℕ → ℕ
  | 0, _ => 0
  | fuel + 1, n => if n = 0 then 0 else bitlenAux fuel (n / 2) + 1

/-- Number of binary digits of `n` (0 for 0), i.e. the least `k` with
`n < 2 ^ k`. -/
def bitlen (n : ℕ) : ℕ := bitlenAux n n

/-- Binary64 value of the integer `n` (CPython's `PyLong_AsDouble`) on
the range where the conversion yields a finite double: exact below
`2 ^ 53`, otherwise `n` rounded half-even to a multiple of the ulp
`2 ^ (bitlen n - 53)`.  The result of rounding an integer is an
integer, so the model stays in `ℕ`.  From `2 ^ 1024 - 2 ^ 970` upward
the rounded value reaches `2 ^ 1024` and CPython raises
`OverflowError` instead; `floatOfNatChecked` models that error path. -/
def floatOfNat (n : ℕ) : ℕ :=
  let k := bitlen n
  if k ≤ 53 then n
  else roundHE n (2 ^ (k - 53)) * 2 ^ (k - 53)

/-- CPython's `PyLong_AsDouble` with its failure mode: integers whose
round-to-nearest-even binary64 value would reach `2 ^ 1024` — that is,
`n ≥ 2 ^ 1024 - 2 ^ 970` — raise `OverflowError` ("int too large to
convert to float"); below that threshold the conversion is
`floatOfNat`. -/
def floatOfNatChecked (n : ℕ) : Except String ℕ :=
  if 2 ^ 1024 - 2 ^ 970 ≤ n then
    Except.error "int too large to convert to float"
  else Except.ok (floatOfNat n)

/-- `int(x / 1000.0)` for a binary64 double holding the nonnegative
integer `x`: the floor of the correctly rounded binary64 quotient
`x / 1000`.  With `q = x / 1000` (exact floor) the quotient lies in the
binade `[2 ^ (bitlen q - 1), 2 ^ (bitlen q))`, whose ulp is
`2 ^ (bitlen q - 53)`; the mantissa is rounded half-even.  When the
quotient is below 1 (`bitlen q ≤ 0` cases fold into the second branch)
the rounded double still lies in `[0, 1)`, so the floor 0 the branch
returns is the floor of the true double. -/
def pyIntDiv1000 (x : ℕ) : ℕ :=
  let q := x / 1000
  let k := bitlen q
  if 53 ≤ k then roundHE x (1000 * 2 ^ (k - 53)) * 2 ^ (k - 53)
  else roundHE (x * 2 ^ (53 - k)) 1000 / 2 ^ (53 - k)

/-- Line 25 of the source,
`offset_frames = int(framerate * abs(delay_ms) / 1000.0)`, on the
inputs where the int-to-float conversion does not overflow. -/
def offsetFramesPy (framerate : ℕ) (delay_ms : ℤ) : ℕ :=
  pyIntDiv1000 (floatOfNat (framerate * delay_ms.natAbs))

/-- Line 25 of the source with its `OverflowError` path made explicit:
the conversion of `framerate * abs(delay_ms)` to binary64 raises for
products of `2 ^ 1024 - 2 ^ 970` or more, otherwise the division and
truncation proceed as in `offsetFramesPy`. -/
def offsetFramesPyChecked (framerate : ℕ) (delay_ms : ℤ) : Except String ℕ :=
  match floatOfNatChecked (framerate * delay_ms.natAbs) with
  | Except.error e => Except.error e
  | Except.ok x => Except.ok (pyIntDiv1000 x)

/-! ## WAV model and `apply_offset` (source lines 14-49) -/

/-- A WAV file as the `wave` module presents it: format metadata, the
header frame count (`getnframes`), and the sample payload as a byte
list. -/
structure WavFile where
  nchannels : ℕ
  sampwidth : ℕ
  framerate : ℕ
  comptype : String
  compname : String
  data : List ℕ
  nframes : ℕ
deriving DecidableEq

/-- A WAV file is well formed when its payload length matches the header
frame count times the frame size and the frame size is positive (the
`wave` module rejects zero channels / zero sample width on writing). -/
def WavWF (w : WavFile) : Prop :=
  w.data.length = w.nframes * w.nchannels * w.sampwidth ∧
    0 < w.nchannels ∧ 0 < w.sampwidth

/-- Writing a WAV file (source lines 44-49): the five metadata fields are
copied from the source file and `wave` patches the header frame count to
`len(payload) // (nchannels * sampwidth)`. -/
def writeWav (src : WavFile) (payload : List ℕ) : WavFile :=
  { nchannels := src.nchannels, sampwidth := src.sampwidth,
    framerate := src.framerate, comptype := src.comptype,
    compname := src.compname, data := payload,
    nframes := payload.length / (src.nchannels * src.sampwidth) }

/-- Embedding of `apply_offset` (source lines 14-49).  `readframes n`
after `setpos p` yields bytes `[p*framesize, p*framesize + n*framesize)`
of the payload, capped at its end, hence the `drop`/`take` combinations.
A raised `ValueError` becomes `Except.error`; it is raised inside the
reading `with` block, before the output file is opened, so in the error
case no destination file is ever created. -/
def apply_offset (w : WavFile) (delay_ms : ℤ) : Except String WavFile :=
  let offset_frames := offsetFramesPy w.framerate delay_ms
  if delay_ms < 0 then
    if offset_frames ≥ w.nframes then
      Except.error ("Cannot trim " ++ toString delay_ms ++ " ms; file is too short.")
    else
      Except.ok (writeWav w
        ((w.data.drop (offset_frames * (w.nchannels * w.sampwidth))).take
          ((w.nframes - offset_frames) * (w.nchannels * w.sampwidth))))
  else if delay_ms > 0 then
    Except.ok (writeWav w
      (List.replicate (offset_frames * w.nchannels * w.sampwidth) 0 ++
        w.data.take (w.nframes * (w.nchannels * w.sampwidth))))
  else
    Except.ok (writeWav w (w.data.take (w.nframes * (w.nchannels * w.sampwidth))))

/-- `apply_offset` including the `OverflowError` that line 25 itself
can raise: the offset-frame computation runs before any branching on
the sign of the delay, so an overflowing `framerate * abs(delay_ms)`
product aborts the transform (with no destination file) whatever the
delay's sign; otherwise the transform proceeds as `apply_offset`. -/
def apply_offset_checked (w : WavFile) (delay_ms : ℤ) : Except String WavFile :=
  match offsetFramesPyChecked w.framerate delay_ms with
  | Except.error e => Except.error e
  | Except.ok _ => apply_offset w delay_ms

/-! ## Asset discovery: `gather_vgs_files` (source lines 52-77)

Paths are modelled as their `pathlib` `parts`: a list of segments whose
last element is the file name.  The input of the filter is the list of
candidate `*.vgs` paths that `rglob` produced.  Lower-casing is modelled
on ASCII (`Char.toLower`), and `\d` of the regex as the ASCII digits the
file names use. -/

/-- ASCII lower-casing of a string, modelling `str.lower()` on the ASCII
names the tool handles. -/
def lowerStr (s : String) : String := ⟨s.data.map Char.toLower⟩

/-- Final path segment (the file name), as `pathlib`'s `name`. -/
def pathName (p : List String) : String := p.getLastD ""

/-- Stem of a file name, with `pathlib` semantics: cut at the last dot
when that dot is neither the first nor the last character, otherwise
return the name unchanged. -/
def stemOf (name : String) : String :=
  let cs := name.data
  match cs.reverse.findIdx? (· == '.') with
  | none => name
  | some j =>
    let i := cs.length - 1 - j
    if 0 < i ∧ i < cs.length - 1 then ⟨cs.take i⟩ else name

/-- The regex test `re.search(r'_p\d{2}$', s)` of source line 73: the
string ends with `_p` followed by exactly two digits, i.e. its last four
characters are `_`, `p`, digit, digit. -/
def endsPdd (s : String) : Bool :=
  match s.data.reverse with
  | d2 :: d1 :: c :: u :: _ => d2.isDigit && d1.isDigit && (c == 'p') && (u == '_')
  | _ => false

/-- The keep/skip decision of the loop body, source lines 60-76. -/
def eligibleVgs (p : List String) : Bool :=
  let partsLower := p.map lowerStr
  let stemLower := lowerStr (stemOf (pathName p))
  if partsLower.contains "tutorial" || partsLower.contains "sfx" then false
  else if partsLower.contains "songs" = false then false
  else if endsPdd stemLower then false
  else true

/-- Embedding of `gather_vgs_files` (source lines 52-77), applied to the
candidate list produced by `rglob("*.vgs")`. -/
def gather_vgs_files (allVgs : List (List String)) : List (List String) :=
  allVgs.filter eligibleVgs

/-- The discovery rule as the specification words it: no segment is
(case-insensitively) "tutorial" or "sfx", some segment is "songs", and
the stem does not end in `_p` followed by exactly two digits. -/
def specEligible (p : List String) : Prop :=
  (∀ seg ∈ p, lowerStr seg ≠ "tutorial" ∧ lowerStr seg ≠ "sfx") ∧
  (∃ seg ∈ p, lowerStr seg = "songs") ∧
  ¬ ∃ pre d1 d2, d1.isDigit = true ∧ d2.isDigit = true ∧
      (lowerStr (stemOf (pathName p))).data = pre ++ ['_', 'p', d1, d2]

/-! ## Archive-unit handling and orchestration

External tools are oracles: a `Bool` records whether an invocation would
exit with status 0.  `subprocess.run(..., check=True)` raises on a
nonzero status, and raises `FileNotFoundError` when the binary is
absent; neither exception is caught in `extract_ark`, `repack_ark` or
`main`, which the models make explicit. -/

/-- Result of `repack_ark` as the spec describes it. -/
inductive RepackResult where
  | skipped
  | packed
deriving DecidableEq

/-- Embedding of `repack_ark` (source lines 138-155) over a workspace
listed by its file names.  `dest` is the current destination archive
pair, `packOutput` what the external `dir2ark` invocation would leave
there; the final `Bool` records whether that invocation happened. -/
def repack_ark {α : Type} (wsFiles : List String) (dest packOutput : α) :
    RepackResult × α × Bool :=
  if wsFiles.contains "ark.txt" = false then (RepackResult.skipped, dest, false)
  else (RepackResult.packed, packOutput, true)

/-- On-disk state around one asset of `process_vgs_files`: whether the
original `.vgs` now holds the retimed audio, and which of the three
temporary files exist. -/
structure VgsFiles where
  origProcessed : Bool
  tempWav : Bool
  processedWav : Bool
  tempVgs : Bool
deriving DecidableEq

/-- Embedding of one iteration of `process_vgs_files` (source lines
96-120).  `convertOk` / `convertBackOk` say whether the two external
codec invocations succeed (false also covers a missing binary, whose
`FileNotFoundError` the `except Exception` clause catches like any
other failure); `wav` is the PCM file the first conversion would
produce, fed to `apply_offset`.  The `finally` clause always removes
the two intermediate WAV files; `os.replace` atomically renames the
converted `.vgs` onto the original only after all three steps
succeeded. -/
def process_one_vgs (convertOk : Bool) (wav : WavFile) (delay_ms : ℤ)
    (convertBackOk : Bool) : VgsFiles :=
  let afterTry : VgsFiles :=
    if convertOk = false then ⟨false, false, false, false⟩
    else
      match apply_offset wav delay_ms with
      | Except.error _ => ⟨false, true, false, false⟩
      | Except.ok _ =>
        if convertBackOk = false then ⟨false, true, true, false⟩
        else ⟨true, true, true, false⟩
  { afterTry with tempWav := false, processedWav := false }

/-- One archive unit of the `main` loop (source lines 409-425): a
discovered `MAIN.HDR`, whether a companion `MAIN*.ARK` exists, and the
exit status the two `arkhelper` invocations would have. -/
structure UnitCase where
  hasArk : Bool
  unpackExitOk : Bool
  packExitOk : Bool
deriving DecidableEq

/-- Inputs of a `main` run that the claims touch: existence of the
`main` folder and of the external binaries, the exit statuses of the
per-image `7z` extractions, and the archive units discovered. -/
structure World where
  mainFolderExists : Bool
  arkhelperPresent : Bool
  sevenZPresent : Bool
  isoExitOks : List Bool
  units : List UnitCase
deriving DecidableEq

/-- Observable events of a `main` run. -/
inductive Ev where
  | isoExtract (i : ℕ) (ok : Bool)
  | unpackAttempt (u : ℕ)
  | packAttempt (u : ℕ)
  | workspaceRemoved (u : ℕ)
deriving DecidableEq

/-- How a `main` run ends. -/
inductive RunOutcome where
  | completed
  | earlyExit
  | crashed
deriving DecidableEq

/-- Embedding of the archive-unit loop of `main` (source lines 409-425),
with `i` the index of the first unit of `us`.  Units without a companion
`.ARK` are skipped silently.  `extract_ark` creates the workspace and
invokes `arkhelper ark2dir` with `check=True`: a nonzero exit or a
missing binary raises, and `main` has no handler, so the loop stops with
the workspace never removed (`Bool` result `true` = uncaught exception).
On success the marker is created and `process_vgs_files` runs (it
catches every per-asset exception, see `process_one_vgs`, so it never
raises here); `repack_ark` then sees the marker and invokes `arkhelper
dir2ark`, whose failure likewise propagates before the `shutil.rmtree`
teardown line is reached. -/
def runUnits (w : World) : ℕ → List UnitCase → List Ev × Bool
  | _, [] => ([], false)
  | i, u :: rest =>
    if u.hasArk = false then runUnits w (i + 1) rest
    else if (w.arkhelperPresent && u.unpackExitOk) = false then
      ([Ev.unpackAttempt i], true)
    else if (w.arkhelperPresent && u.packExitOk) = false then
      ([Ev.unpackAttempt i, Ev.packAttempt i], true)
    else
      let r := runUnits w (i + 1) rest
      (Ev.unpackAttempt i :: Ev.packAttempt i :: Ev.workspaceRemoved i :: r.1, r.2)

/-- Embedding of `extract_any_isos` (source lines 317-354): a missing
`7z` binary only logs a warning and extracts nothing; each image is
extracted independently, failures logged and skipped. -/
def extractIsoEvents (w : World) : List Ev :=
  if w.sevenZPresent = false then []
  else w.isoExitOks.enum.map fun p => Ev.isoExtract p.1 p.2

/-- Embedding of the non-interactive pipeline of `main` (source lines
375-428, skip mode off): the only check before processing is that the
`main` folder exists (`sys.exit(1)` otherwise — no external binary is
tested for existence); then disc-image extraction, the archive-unit
loop, and the loose-asset pass (`process_vgs_files` over the root,
which never raises).  The interactive `build_iso` step is outside the
specified core.  An exception escaping the unit loop crashes the run. -/
def mainModel (w : World) : List Ev × RunOutcome :=
  if w.mainFolderExists = false then ([], RunOutcome.earlyExit)
  else
    let isoEvs := extractIsoEvents w
    let r := runUnits w 0 w.units
    if r.2 then (isoEvs ++ r.1, RunOutcome.crashed)
    else (isoEvs ++ r.1, RunOutcome.completed)

/-- A unit the loop passes through without incident: either it has no
companion `.ARK` (skipped), or both `arkhelper` invocations succeed. -/
def unitClean (w : World) (v : UnitCase) : Prop :=
  v.hasArk = false ∨
    ((w.arkhelperPresent && v.unpackExitOk) = true ∧
      (w.arkhelperPresent && v.packExitOk) = true)

/-! ## Arithmetic facts about the line-25 model -/

/-- Round-half-even is at least the floor of the quotient. -/
lemma roundHE_ge (num den : ℕ) : num / den ≤ roundHE num den := by
  simp only [roundHE]
  repeat' split
  all_goals omega

/-- Round-half-even is at most one above the floor of the quotient. -/
lemma roundHE_le (num den : ℕ) : roundHE num den ≤ num / den + 1 := by
  simp only [roundHE]
  repeat' split
  all_goals omega

/-- With enough fuel, `bitlenAux` is bounded by any exponent dominating
its argument. -/
lemma bitlenAux_le : ∀ fuel n k : ℕ, n ≤ fuel → n < 2 ^ k → bitlenAux fuel n ≤ k := by
  intro fuel
  induction fuel with
  | zero => intro n k _ _; simp [bitlenAux]
  | succ f ih =>
    intro n k hn hk
    by_cases h0 : n = 0
    · simp [bitlenAux, h0]
    · have hk0 : k ≠ 0 := by
        intro h
        subst h
        simp only [pow_zero] at hk
        omega
      obtain ⟨k', rfl⟩ : ∃ k', k = k' + 1 := ⟨k - 1, by omega⟩
      have h1 : n / 2 < 2 ^ k' := by
        rw [Nat.div_lt_iff_lt_mul (by norm_num)]
        calc n < 2 ^ (k' + 1) := hk
          _ = 2 ^ k' * 2 := by ring
      have h2 : n / 2 ≤ f := by omega
      simp only [bitlenAux, if_neg h0]
      have h3 := ih (n / 2) k' h2 h1
      omega

/-- `bitlen n ≤ k` whenever `n < 2 ^ k`. -/
lemma bitlen_le {n k : ℕ} (h : n < 2 ^ k) : bitlen n ≤ k :=
  bitlenAux_le n n k le_rfl h

/-- Integers below `2 ^ 53` convert to binary64 exactly. -/
lemma floatOfNat_small {n : ℕ} (h : n < 2 ^ 53) : floatOfNat n = n := by
  unfold floatOfNat
  rw [if_pos (bitlen_le h)]

/-- Below `1000 * 2 ^ 43` the rounded binary64 division by 1000 has the
same floor as exact division: the quotient's distance to the nearest
double (at most half an ulp, i.e. less than `2 ^ (-10)`) cannot carry it
across an integer. -/
lemma pyIntDiv1000_exact (x : ℕ) (hx : x < 1000 * 2 ^ 43) :
    pyIntDiv1000 x = x / 1000 := by
  unfold pyIntDiv1000
  have hq43 : x / 1000 < 2 ^ 43 := by
    rw [Nat.div_lt_iff_lt_mul (by norm_num)]
    omega
  have hk : bitlen (x / 1000) ≤ 43 := bitlen_le hq43
  rw [if_neg (by omega)]
  have hs10 : 10 ≤ 53 - bitlen (x / 1000) := by omega
  set s := 53 - bitlen (x / 1000) with hs
  have hpow : (1024 : ℕ) ≤ 2 ^ s := by
    calc (1024 : ℕ) = 2 ^ 10 := by norm_num
      _ ≤ 2 ^ s := Nat.pow_le_pow_right (by norm_num) hs10
  have hx2 : x * 2 ^ s = 1000 * (x / 1000 * 2 ^ s) + x % 1000 * 2 ^ s := by
    conv_lhs => rw [← Nat.div_add_mod x 1000]
    ring
  have h2 : x * 2 ^ s / 1000 = x / 1000 * 2 ^ s + x % 1000 * 2 ^ s / 1000 := by
    rw [hx2, Nat.mul_add_div (by norm_num)]
  have hlow : x / 1000 * 2 ^ s ≤ roundHE (x * 2 ^ s) 1000 := by
    refine le_trans ?_ (roundHE_ge _ _)
    omega
  have hr : x % 1000 ≤ 999 := by omega
  have h5 : 999 * 2 ^ s / 1000 < 2 ^ s - 1 := by
    rw [Nat.div_lt_iff_lt_mul (by norm_num)]
    omega
  have h4 : x % 1000 * 2 ^ s / 1000 ≤ 999 * 2 ^ s / 1000 :=
    Nat.div_le_div_right (Nat.mul_le_mul_right _ hr)
  have hhigh : roundHE (x * 2 ^ s) 1000 < (x / 1000 + 1) * 2 ^ s := by
    have h6 := roundHE_le (x * 2 ^ s) 1000
    rw [h2] at h6
    have h7 : (x / 1000 + 1) * 2 ^ s = x / 1000 * 2 ^ s + 2 ^ s := by ring
    omega
  rw [Nat.div_eq_of_lt_le hlow hhigh]

/-- Below the threshold `1000 * 2 ^ 43` the whole of line 25 computes
the exact floor. -/
lemma offsetFramesPy_exact (framerate : ℕ) (delay_ms : ℤ)
    (h : framerate * delay_ms.natAbs < 1000 * 2 ^ 43) :
    offsetFramesPy framerate delay_ms = framerate * delay_ms.natAbs / 1000 := by
  unfold offsetFramesPy
  rw [floatOfNat_small (lt_trans h (by norm_num))]
  exact pyIntDiv1000_exact _ h

/-- C7 (amended): the number of frames trimmed or prepended equals
`floor(frameRate * abs(offsetMs) / 1000)` computed over exact integer
arithmetic whenever `frameRate * abs(offsetMs) < 1000 * 2 ^ 43`; beyond
that threshold the double-precision evaluation of line 25 can differ
from the exact floor (see the counterexample). -/
theorem c7_offset_frames_exact_floor (framerate : ℕ) (delay_ms : ℤ)
    (h : framerate * delay_ms.natAbs < 1000 * 2 ^ 43) :
    offsetFramesPy framerate delay_ms = framerate * delay_ms.natAbs / 1000 :=
  offsetFramesPy_exact framerate delay_ms h

/-- C7 witness: the spec's own scenario, 44100 Hz and -60 ms, yields
`floor(44100 * 60 / 1000) = 2646` frames. -/
theorem c7_offset_frames_exact_floor_witness :
    44100 * (-60 : ℤ).natAbs < 1000 * 2 ^ 43 ∧
      offsetFramesPy 44100 (-60) = 44100 * (-60 : ℤ).natAbs / 1000 :=
  ⟨by decide, c7_offset_frames_exact_floor 44100 (-60) (by decide)⟩

/-- C7 counterexample: at frame rate 3 and offset -3002399751582333 ms
the product is 9007199254746999 = 2^53 + 6007; converting it to binary64
rounds it up to 9007199254747000 (an exact tie resolved to the even
mantissa), so line 25 yields 9007199254747 frames while the exact floor
is 9007199254746.  The code therefore does not compute the exact-integer
floor for every frame rate and offset. -/
theorem c7_counterexample :
    offsetFramesPy 3 (-3002399751582333) = 9007199254747 ∧
      3 * (-3002399751582333 : ℤ).natAbs / 1000 = 9007199254746 ∧
      offsetFramesPy 3 (-3002399751582333) ≠
        3 * (-3002399751582333 : ℤ).natAbs / 1000 :=
  ⟨by decide, by decide, by decide⟩

/-! ## Claims about `apply_offset` -/

/-- C3: for every well-formed PCM input and negative offset, if the
computed offset frame count reaches the total frame count the transform
fails (raising before the destination is ever opened, so no destination
file is left behind); otherwise it succeeds, the output payload is the
input frames `[offsetFrames, totalFrames)` verbatim, and the output
frame count is `totalFrames - offsetFrames`. -/
theorem c3_trim_semantics (w : WavFile) (delay_ms : ℤ)
    (hneg : delay_ms < 0) (hwf : WavWF w) :
    (w.nframes ≤ offsetFramesPy w.framerate delay_ms →
      ∃ e, apply_offset w delay_ms = Except.error e) ∧
    (offsetFramesPy w.framerate delay_ms < w.nframes →
      apply_offset w delay_ms = Except.ok
        { nchannels := w.nchannels, sampwidth := w.sampwidth,
          framerate := w.framerate, comptype := w.comptype,
          compname := w.compname,
          data := w.data.drop
            (offsetFramesPy w.framerate delay_ms * (w.nchannels * w.sampwidth)),
          nframes := w.nframes - offsetFramesPy w.framerate delay_ms }) := by
  obtain ⟨hlen, hch, hsw⟩ := hwf
  constructor
  · intro hge
    refine ⟨"Cannot trim " ++ toString delay_ms ++ " ms; file is too short.", ?_⟩
    simp only [apply_offset]
    rw [if_pos hneg, if_pos hge]
  · intro hlt
    have hnotge : ¬ (offsetFramesPy w.framerate delay_ms ≥ w.nframes) := by omega
    simp only [apply_offset]
    rw [if_pos hneg, if_neg hnotge]
    have hdlen : (w.data.drop
        (offsetFramesPy w.framerate delay_ms * (w.nchannels * w.sampwidth))).length
        = (w.nframes - offsetFramesPy w.framerate delay_ms)
          * (w.nchannels * w.sampwidth) := by
      rw [List.length_drop, hlen, Nat.sub_mul, Nat.mul_assoc]
    have hpay : (w.data.drop
        (offsetFramesPy w.framerate delay_ms * (w.nchannels * w.sampwidth))).take
        ((w.nframes - offsetFramesPy w.framerate delay_ms)
          * (w.nchannels * w.sampwidth))
        = w.data.drop
            (offsetFramesPy w.framerate delay_ms * (w.nchannels * w.sampwidth)) :=
      List.take_of_length_le (le_of_eq hdlen)
    rw [hpay]
    simp only [writeWav, Except.ok.injEq, WavFile.mk.injEq, true_and, and_true]
    rw [hdlen, Nat.mul_div_cancel _ (Nat.mul_pos hch hsw)]

/-- C3 witness: a 3-frame mono 8-bit 1000 Hz file trimmed by 1 ms loses
exactly one frame, leaving frames 1 and 2. -/
theorem c3_trim_semantics_witness :
    ((-1 : ℤ) < 0 ∧ WavWF ⟨1, 1, 1000, "NONE", "not compressed", [7, 8, 9], 3⟩) ∧
      (offsetFramesPy 1000 (-1) < 3 →
        apply_offset ⟨1, 1, 1000, "NONE", "not compressed", [7, 8, 9], 3⟩ (-1)
          = Except.ok ⟨1, 1, 1000, "NONE", "not compressed", [8, 9], 2⟩) := by
  have h := (c3_trim_semantics ⟨1, 1, 1000, "NONE", "not compressed", [7, 8, 9], 3⟩
    (-1) (by decide) ⟨by decide, by decide, by decide⟩).2
  exact ⟨⟨by decide, by decide, by decide, by decide⟩, fun _ => by
    have h2 := h (by decide)
    exact h2⟩

/-- Padding semantics of the transform on executions where line 25
does not overflow (helper for the C4 theorems): for a well-formed
input and positive offset, `offsetFrames * channelCount * sampleWidth`
zero bytes are prepended before the unmodified payload and the frame
count grows by `offsetFrames`. -/
lemma apply_offset_pad (w : WavFile) (delay_ms : ℤ)
    (hpos : 0 < delay_ms) (hwf : WavWF w) :
    apply_offset w delay_ms = Except.ok
      { nchannels := w.nchannels, sampwidth := w.sampwidth,
        framerate := w.framerate, comptype := w.comptype,
        compname := w.compname,
        data := List.replicate
          (offsetFramesPy w.framerate delay_ms * w.nchannels * w.sampwidth) 0
          ++ w.data,
        nframes := w.nframes + offsetFramesPy w.framerate delay_ms } ∧
    (List.replicate
        (offsetFramesPy w.framerate delay_ms * w.nchannels * w.sampwidth) (0 : ℕ)
        ++ w.data).take
      (offsetFramesPy w.framerate delay_ms * (w.nchannels * w.sampwidth))
      = List.replicate
          (offsetFramesPy w.framerate delay_ms * (w.nchannels * w.sampwidth)) 0 ∧
    (List.replicate
        (offsetFramesPy w.framerate delay_ms * w.nchannels * w.sampwidth) (0 : ℕ)
        ++ w.data).drop
      (offsetFramesPy w.framerate delay_ms * (w.nchannels * w.sampwidth))
      = w.data := by
  obtain ⟨hlen, hch, hsw⟩ := hwf
  set off := offsetFramesPy w.framerate delay_ms with hoffdef
  have hrep : (List.replicate (off * w.nchannels * w.sampwidth) (0 : ℕ)).length
      = off * w.nchannels * w.sampwidth := List.length_replicate _ _
  refine ⟨?_, ?_, ?_⟩
  · have htake : w.data.take (w.nframes * (w.nchannels * w.sampwidth)) = w.data :=
      List.take_of_length_le (le_of_eq (by rw [hlen, Nat.mul_assoc]))
    simp only [apply_offset, ← hoffdef]
    rw [if_neg (by omega), if_pos hpos, htake]
    simp only [writeWav, Except.ok.injEq, WavFile.mk.injEq, true_and, and_true]
    rw [List.length_append, hrep, hlen,
      show off * w.nchannels * w.sampwidth + w.nframes * w.nchannels * w.sampwidth
        = (w.nframes + off) * (w.nchannels * w.sampwidth) from by ring,
      Nat.mul_div_cancel _ (Nat.mul_pos hch hsw)]
  · rw [← Nat.mul_assoc]
    calc (List.replicate (off * w.nchannels * w.sampwidth) (0 : ℕ) ++ w.data).take
          (off * w.nchannels * w.sampwidth)
        = (List.replicate (off * w.nchannels * w.sampwidth) (0 : ℕ) ++ w.data).take
            (List.replicate (off * w.nchannels * w.sampwidth) (0 : ℕ)).length := by
          rw [hrep]
      _ = List.replicate (off * w.nchannels * w.sampwidth) (0 : ℕ) :=
          List.take_left _ _
  · rw [← Nat.mul_assoc]
    calc (List.replicate (off * w.nchannels * w.sampwidth) (0 : ℕ) ++ w.data).drop
          (off * w.nchannels * w.sampwidth)
        = (List.replicate (off * w.nchannels * w.sampwidth) (0 : ℕ) ++ w.data).drop
            (List.replicate (off * w.nchannels * w.sampwidth) (0 : ℕ)).length := by
          rw [hrep]
      _ = w.data := List.drop_left _ _

/-- Below the binary64 overflow threshold line 25 raises nothing, so
the checked transform agrees with `apply_offset`. -/
lemma apply_offset_checked_of_small (w : WavFile) (delay_ms : ℤ)
    (h : w.framerate * delay_ms.natAbs < 2 ^ 1024 - 2 ^ 970) :
    apply_offset_checked w delay_ms = apply_offset w delay_ms := by
  unfold apply_offset_checked offsetFramesPyChecked floatOfNatChecked
  rw [if_neg (Nat.not_le.mpr h)]

set_option maxRecDepth 8000 in
/-- C4 counterexample: at 44100 Hz and offset `10 ^ 305` ms the product
`44100 * 10 ^ 305` exceeds the binary64 range, so line 25 raises
`OverflowError` ("int too large to convert to float", caught per asset
by the caller) and the transform produces no padded output at all: the
claim is false for this well-formed input and positive offset. -/
theorem c4_counterexample :
    (0 : ℤ) < 10 ^ 305 ∧
    WavWF ⟨1, 1, 44100, "NONE", "not compressed", [7, 8, 9], 3⟩ ∧
    apply_offset_checked ⟨1, 1, 44100, "NONE", "not compressed", [7, 8, 9], 3⟩
        (10 ^ 305)
      = Except.error "int too large to convert to float" ∧
    ∀ out, apply_offset_checked ⟨1, 1, 44100, "NONE", "not compressed", [7, 8, 9], 3⟩
        (10 ^ 305) ≠ Except.ok out := by
  have herr : apply_offset_checked
      ⟨1, 1, 44100, "NONE", "not compressed", [7, 8, 9], 3⟩ (10 ^ 305)
      = Except.error "int too large to convert to float" := by
    unfold apply_offset_checked offsetFramesPyChecked floatOfNatChecked
    rw [if_pos (by decide)]
  refine ⟨by decide, ⟨by decide, by decide, by decide⟩, herr, fun out hok => ?_⟩
  rw [herr] at hok
  exact Except.noConfusion hok

/-- C4 (amended): for every well-formed PCM input and every positive
offset whose `frameRate * offsetMs` product stays below the binary64
overflow threshold `2 ^ 1024 - 2 ^ 970` (from the threshold upward
line 25 raises `OverflowError` instead of padding, see the
counterexample), the transform succeeds and prepends exactly
`offsetFrames * channelCount * sampleWidth` zero bytes before the
unmodified original payload, so the output frame count is
`totalFrames + offsetFrames`, the first `offsetFrames` frames are all
zero, and the remaining frames equal the original payload. -/
theorem c4_pad_semantics_bounded (w : WavFile) (delay_ms : ℤ)
    (hpos : 0 < delay_ms) (hwf : WavWF w)
    (hsmall : w.framerate * delay_ms.natAbs < 2 ^ 1024 - 2 ^ 970) :
    apply_offset_checked w delay_ms = Except.ok
      { nchannels := w.nchannels, sampwidth := w.sampwidth,
        framerate := w.framerate, comptype := w.comptype,
        compname := w.compname,
        data := List.replicate
          (offsetFramesPy w.framerate delay_ms * w.nchannels * w.sampwidth) 0
          ++ w.data,
        nframes := w.nframes + offsetFramesPy w.framerate delay_ms } ∧
    (List.replicate
        (offsetFramesPy w.framerate delay_ms * w.nchannels * w.sampwidth) (0 : ℕ)
        ++ w.data).take
      (offsetFramesPy w.framerate delay_ms * (w.nchannels * w.sampwidth))
      = List.replicate
          (offsetFramesPy w.framerate delay_ms * (w.nchannels * w.sampwidth)) 0 ∧
    (List.replicate
        (offsetFramesPy w.framerate delay_ms * w.nchannels * w.sampwidth) (0 : ℕ)
        ++ w.data).drop
      (offsetFramesPy w.framerate delay_ms * (w.nchannels * w.sampwidth))
      = w.data := by
  rw [apply_offset_checked_of_small w delay_ms hsmall]
  exact apply_offset_pad w delay_ms hpos hwf

set_option maxRecDepth 8000 in
/-- C4 witness: padding the 3-frame file by 1 ms at 1000 Hz (a product
far below the overflow threshold) prepends one zero frame, giving
payload `[0, 7, 8, 9]` and frame count 4. -/
theorem c4_pad_semantics_bounded_witness :
    ((0 : ℤ) < 1 ∧ WavWF ⟨1, 1, 1000, "NONE", "not compressed", [7, 8, 9], 3⟩ ∧
        1000 * (1 : ℤ).natAbs < 2 ^ 1024 - 2 ^ 970) ∧
      apply_offset_checked ⟨1, 1, 1000, "NONE", "not compressed", [7, 8, 9], 3⟩ 1
        = Except.ok ⟨1, 1, 1000, "NONE", "not compressed", [0, 7, 8, 9], 4⟩ :=
  ⟨⟨by decide, ⟨by decide, by decide, by decide⟩, by decide⟩,
    (c4_pad_semantics_bounded ⟨1, 1, 1000, "NONE", "not compressed", [7, 8, 9], 3⟩
      1 (by decide) ⟨by decide, by decide, by decide⟩ (by decide)).1⟩

/-- C5: with offset 0 the transform is an identity on well-formed
inputs: the payload is byte-identical and every metadata field
(channels, sample width, frame rate, compression tag) is preserved. -/
theorem c5_zero_identity (w : WavFile) (hwf : WavWF w) :
    apply_offset w 0 = Except.ok
      { nchannels := w.nchannels, sampwidth := w.sampwidth,
        framerate := w.framerate, comptype := w.comptype,
        compname := w.compname, data := w.data, nframes := w.nframes } := by
  obtain ⟨hlen, hch, hsw⟩ := hwf
  have htake : w.data.take (w.nframes * (w.nchannels * w.sampwidth)) = w.data :=
    List.take_of_length_le (le_of_eq (by rw [hlen, Nat.mul_assoc]))
  simp only [apply_offset]
  rw [if_neg (by decide), if_neg (by decide), htake]
  simp only [writeWav, Except.ok.injEq, WavFile.mk.injEq, true_and, and_true]
  rw [hlen, Nat.mul_assoc, Nat.mul_div_cancel _ (Nat.mul_pos hch hsw)]

/-- C5 witness: the 3-frame file passes through offset 0 unchanged. -/
theorem c5_zero_identity_witness :
    WavWF ⟨1, 1, 1000, "NONE", "not compressed", [7, 8, 9], 3⟩ ∧
      apply_offset ⟨1, 1, 1000, "NONE", "not compressed", [7, 8, 9], 3⟩ 0
        = Except.ok ⟨1, 1, 1000, "NONE", "not compressed", [7, 8, 9], 3⟩ :=
  ⟨⟨by decide, by decide, by decide⟩,
    c5_zero_identity ⟨1, 1, 1000, "NONE", "not compressed", [7, 8, 9], 3⟩
      ⟨by decide, by decide, by decide⟩⟩

/-- C6: whenever the transform succeeds, the output container carries
format metadata (channel count, sample width, frame rate, compression
type and name) identical to the source: every branch writes the output
through the same metadata-copying path. -/
theorem c6_metadata_preserved (w : WavFile) (delay_ms : ℤ) (out : WavFile)
    (h : apply_offset w delay_ms = Except.ok out) :
    out.nchannels = w.nchannels ∧ out.sampwidth = w.sampwidth ∧
      out.framerate = w.framerate ∧ out.comptype = w.comptype ∧
      out.compname = w.compname := by
  simp only [apply_offset] at h
  split_ifs at h
  all_goals
    injection h with h'
    subst h'
    exact ⟨rfl, rfl, rfl, rfl, rfl⟩

/-- C6 witness: a successful zero-offset run preserves all five
metadata fields of the sample file. -/
theorem c6_metadata_preserved_witness :
    apply_offset ⟨1, 1, 1000, "NONE", "not compressed", [7, 8, 9], 3⟩ 0
        = Except.ok ⟨1, 1, 1000, "NONE", "not compressed", [7, 8, 9], 3⟩ ∧
      ((1 : ℕ) = 1 ∧ (1 : ℕ) = 1 ∧ (1000 : ℕ) = 1000 ∧
        "NONE" = "NONE" ∧ "not compressed" = "not compressed") :=
  ⟨rfl, c6_metadata_preserved ⟨1, 1, 1000, "NONE", "not compressed", [7, 8, 9], 3⟩
    0 ⟨1, 1, 1000, "NONE", "not compressed", [7, 8, 9], 3⟩ rfl⟩

/-! ## Claims about discovery -/

/-- Characterisation of the regex test: it fires exactly on strings
whose character list ends in `_`, `p`, digit, digit. -/
lemma endsPdd_iff (s : String) :
    endsPdd s = true ↔
      ∃ pre d1 d2, d1.isDigit = true ∧ d2.isDigit = true ∧
        s.data = pre ++ ['_', 'p', d1, d2] := by
  constructor
  · intro h
    unfold endsPdd at h
    rcases hr : s.data.reverse with _ | ⟨d2, rest1⟩
    · rw [hr] at h; exact absurd h (by simp)
    rcases rest1 with _ | ⟨d1, rest2⟩
    · rw [hr] at h; exact absurd h (by simp)
    rcases rest2 with _ | ⟨c, rest3⟩
    · rw [hr] at h; exact absurd h (by simp)
    rcases rest3 with _ | ⟨u, rest⟩
    · rw [hr] at h; exact absurd h (by simp)
    rw [hr] at h
    simp only [Bool.and_eq_true, beq_iff_eq] at h
    obtain ⟨⟨⟨h2, h1⟩, hc⟩, hu⟩ := h
    refine ⟨rest.reverse, d1, d2, h1, h2, ?_⟩
    have hs : s.data = (s.data.reverse).reverse := (List.reverse_reverse _).symm
    rw [hr] at hs
    rw [hs, hc, hu]
    simp
  · rintro ⟨pre, d1, d2, h1, h2, hdat⟩
    have hrev : s.data.reverse = d2 :: d1 :: 'p' :: '_' :: pre.reverse := by
      rw [hdat]
      simp
    unfold endsPdd
    rw [hrev]
    simp [h1, h2]

/-- Membership in the lower-cased segment list means some segment
lower-cases to the probe. -/
lemma contains_lower_iff (p : List String) (x : String) :
    ((p.map lowerStr).contains x) = true ↔ ∃ seg ∈ p, lowerStr seg = x := by
  constructor
  · intro h
    exact List.mem_map.mp (List.elem_iff.mp h)
  · intro h
    exact List.elem_iff.mpr (List.mem_map.mpr h)

/-- Negative form of `contains_lower_iff`. -/
lemma contains_lower_false_iff (p : List String) (x : String) :
    ((p.map lowerStr).contains x) = false ↔ ∀ seg ∈ p, lowerStr seg ≠ x := by
  constructor
  · intro h seg hm he
    have h2 := (contains_lower_iff p x).mpr ⟨seg, hm, he⟩
    rw [h] at h2
    exact Bool.false_ne_true h2
  · intro h
    cases hc : (p.map lowerStr).contains x
    · rfl
    · obtain ⟨seg, hm, he⟩ := (contains_lower_iff p x).mp hc
      exact absurd he (h seg hm)

/-- The if-chain of the loop body equals one boolean conjunction. -/
lemma eligibleVgs_eq (p : List String) :
    eligibleVgs p =
      (!((p.map lowerStr).contains "tutorial" || (p.map lowerStr).contains "sfx")
        && (p.map lowerStr).contains "songs"
        && !endsPdd (lowerStr (stemOf (pathName p)))) := by
  simp only [eligibleVgs]
  cases h1 : (p.map lowerStr).contains "tutorial" <;>
    cases h2 : (p.map lowerStr).contains "sfx" <;>
      cases h3 : (p.map lowerStr).contains "songs" <;>
        cases h4 : endsPdd (lowerStr (stemOf (pathName p))) <;>
          simp [h1, h2, h3, h4]

/-- The loop's keep decision coincides with the specification's
eligibility rule. -/
lemma eligible_iff (p : List String) : eligibleVgs p = true ↔ specEligible p := by
  rw [eligibleVgs_eq]
  simp only [Bool.and_eq_true, Bool.not_eq_true', Bool.or_eq_false_iff]
  rw [contains_lower_false_iff, contains_lower_false_iff, contains_lower_iff]
  unfold specEligible
  constructor
  · rintro ⟨⟨⟨h1, h2⟩, h3⟩, h4⟩
    refine ⟨fun seg hm => ⟨h1 seg hm, h2 seg hm⟩, h3, ?_⟩
    intro hex
    have := (endsPdd_iff _).mpr hex
    rw [h4] at this
    exact Bool.false_ne_true this
  · rintro ⟨h12, h3, h4⟩
    refine ⟨⟨⟨fun seg hm => (h12 seg hm).1, fun seg hm => (h12 seg hm).2⟩, h3⟩, ?_⟩
    cases hc : endsPdd (lowerStr (stemOf (pathName p)))
    · rfl
    · exact absurd ((endsPdd_iff _).mp hc) h4

/-- C8: discovery returns exactly the candidate paths with no
"tutorial"/"sfx" segment, with some "songs" segment (all
case-insensitively), and whose stem does not end in `_p` plus exactly
two digits; in particular a root holding `songs/track1.vgs` and
`songs/track1_p50.vgs` yields only the former. -/
theorem c8_discovery :
    (∀ cand p, p ∈ gather_vgs_files cand ↔ p ∈ cand ∧ specEligible p) ∧
      gather_vgs_files [["songs", "track1.vgs"], ["songs", "track1_p50.vgs"]]
        = [["songs", "track1.vgs"]] := by
  constructor
  · intro cand p
    rw [gather_vgs_files, List.mem_filter, eligible_iff]
  · decide

/-- C8 witness: the scenario's surviving path is a member of the
discovery output and satisfies the specification's rule. -/
theorem c8_discovery_witness :
    ["songs", "track1.vgs"] ∈
        [["songs", "track1.vgs"], ["songs", "track1_p50.vgs"]] ∧
      specEligible ["songs", "track1.vgs"] :=
  (c8_discovery.1 [["songs", "track1.vgs"], ["songs", "track1_p50.vgs"]]
    ["songs", "track1.vgs"]).mp (by decide)

/-! ## Claims about repacking and orchestration -/

/-- C1: for every workspace, when the unpack marker `ark.txt` is absent
`repack_ark` returns `skipped` without invoking the external pack
service and leaves the destination archive pair untouched; the pack
service is invoked only when the marker is present. -/
theorem c1_repack_marker_guard {α : Type} (wsFiles : List String)
    (dest packOutput : α) :
    ("ark.txt" ∉ wsFiles →
      repack_ark wsFiles dest packOutput = (RepackResult.skipped, dest, false)) ∧
    ((repack_ark wsFiles dest packOutput).2.2 = true → "ark.txt" ∈ wsFiles) := by
  constructor
  · intro h
    have hfalse : wsFiles.contains "ark.txt" = false := by
      cases hc : wsFiles.contains "ark.txt"
      · rfl
      · exact absurd (List.elem_iff.mp hc) h
    unfold repack_ark
    rw [if_pos hfalse]
  · intro h
    by_cases hm : "ark.txt" ∈ wsFiles
    · exact hm
    · exfalso
      have hfalse : wsFiles.contains "ark.txt" = false := by
        cases hc : wsFiles.contains "ark.txt"
        · rfl
        · exact absurd (List.elem_iff.mp hc) hm
      unfold repack_ark at h
      rw [if_pos hfalse] at h
      exact Bool.false_ne_true h

/-- C1 witness: a markerless workspace is skipped with nothing invoked
and the destination untouched; a workspace holding `ark.txt` that did
invoke the service indeed holds the marker. -/
theorem c1_repack_marker_guard_witness :
    ("ark.txt" ∉ (["other.txt"] : List String) ∧
      repack_ark ["other.txt"] (0 : ℕ) 1 = (RepackResult.skipped, 0, false)) ∧
      ((repack_ark ["ark.txt"] (0 : ℕ) 1).2.2 = true ∧
        "ark.txt" ∈ (["ark.txt"] : List String)) :=
  ⟨⟨by decide, (c1_repack_marker_guard ["other.txt"] (0 : ℕ) 1).1 (by decide)⟩,
    ⟨by decide, (c1_repack_marker_guard ["ark.txt"] (0 : ℕ) 1).2 (by decide)⟩⟩

/-- C10: for every asset, the two intermediate WAV files are removed in
every outcome, and the original container is replaced (by the atomic
rename) exactly when all three steps — conversion to WAV, the offset
transform, conversion back — succeeded; in particular any failure
leaves the original byte-for-byte unchanged. -/
theorem c10_original_preserved_on_failure (convertOk : Bool) (wav : WavFile)
    (delay_ms : ℤ) (convertBackOk : Bool) :
    (process_one_vgs convertOk wav delay_ms convertBackOk).tempWav = false ∧
    (process_one_vgs convertOk wav delay_ms convertBackOk).processedWav = false ∧
    ((process_one_vgs convertOk wav delay_ms convertBackOk).origProcessed = true ↔
      convertOk = true ∧ (∃ out, apply_offset wav delay_ms = Except.ok out) ∧
        convertBackOk = true) := by
  unfold process_one_vgs
  cases convertOk
  · simp
  · cases hap : apply_offset wav delay_ms with
    | error e => cases convertBackOk <;> simp [hap]
    | ok out => cases convertBackOk <;> simp [hap]

/-- C10 witness: a fully successful zero-offset pass replaces the
original and leaves no intermediate WAV files. -/
theorem c10_original_preserved_on_failure_witness :
    (process_one_vgs true ⟨1, 1, 1000, "NONE", "not compressed", [7, 8, 9], 3⟩
        0 true).tempWav = false ∧
    (process_one_vgs true ⟨1, 1, 1000, "NONE", "not compressed", [7, 8, 9], 3⟩
        0 true).processedWav = false ∧
    ((process_one_vgs true ⟨1, 1, 1000, "NONE", "not compressed", [7, 8, 9], 3⟩
        0 true).origProcessed = true ↔
      true = true ∧
        (∃ out, apply_offset ⟨1, 1, 1000, "NONE", "not compressed", [7, 8, 9], 3⟩ 0
          = Except.ok out) ∧ true = true) :=
  c10_original_preserved_on_failure true
    ⟨1, 1, 1000, "NONE", "not compressed", [7, 8, 9], 3⟩ 0 true

/-- Unfolding equation for one step of the archive-unit loop. -/
lemma runUnits_cons (w : World) (i : ℕ) (v : UnitCase) (rest : List UnitCase) :
    runUnits w i (v :: rest) =
      if v.hasArk = false then runUnits w (i + 1) rest
      else if (w.arkhelperPresent && v.unpackExitOk) = false then
        ([Ev.unpackAttempt i], true)
      else if (w.arkhelperPresent && v.packExitOk) = false then
        ([Ev.unpackAttempt i, Ev.packAttempt i], true)
      else
        (Ev.unpackAttempt i :: Ev.packAttempt i :: Ev.workspaceRemoved i ::
          (runUnits w (i + 1) rest).1, (runUnits w (i + 1) rest).2) := rfl

/-- Disc-image extraction emits no workspace-removal events. -/
lemma workspaceRemoved_not_in_isoEvents (w : World) (k : ℕ) :
    Ev.workspaceRemoved k ∉ extractIsoEvents w := by
  unfold extractIsoEvents
  split
  · simp
  · intro hmem
    simp only [List.mem_map] at hmem
    obtain ⟨p, _, hp⟩ := hmem
    exact Ev.noConfusion hp

/-- Disc-image extraction emits no unpack attempts. -/
lemma unpackAttempt_not_in_isoEvents (w : World) (k : ℕ) :
    Ev.unpackAttempt k ∉ extractIsoEvents w := by
  unfold extractIsoEvents
  split
  · simp
  · intro hmem
    simp only [List.mem_map] at hmem
    obtain ⟨p, _, hp⟩ := hmem
    exact Ev.noConfusion hp

/-- Behaviour of the unit loop when, after a clean prefix, a unit's
unpack invocation fails: the loop reports an uncaught exception, the
failing attempt is in the trace, that unit's workspace is never
removed, and no later unit is reached. -/
lemma runUnits_fail (w : World) :
    ∀ (pre : List UnitCase) (i : ℕ) (u : UnitCase) (post : List UnitCase),
      (∀ v ∈ pre, unitClean w v) → u.hasArk = true →
      (w.arkhelperPresent && u.unpackExitOk) = false →
      (runUnits w i (pre ++ u :: post)).2 = true ∧
      Ev.unpackAttempt (i + pre.length) ∈ (runUnits w i (pre ++ u :: post)).1 ∧
      Ev.workspaceRemoved (i + pre.length) ∉ (runUnits w i (pre ++ u :: post)).1 ∧
      ∀ j, i + pre.length < j →
        Ev.unpackAttempt j ∉ (runUnits w i (pre ++ u :: post)).1 := by
  intro pre
  induction pre with
  | nil =>
    intro i u post _ hu hfail
    simp only [List.nil_append, List.length_nil, Nat.add_zero]
    rw [runUnits_cons, if_neg (by simp [hu]), if_pos hfail]
    refine ⟨rfl, by simp, ?_, ?_⟩
    · intro hmem
      simp only [List.mem_singleton] at hmem
      exact Ev.noConfusion hmem
    · intro j hj hmem
      simp only [List.mem_singleton] at hmem
      injection hmem with h'
      omega
  | cons v pre' ih =>
    intro i u post hclean hu hfail
    have hclean' : ∀ x ∈ pre', unitClean w x :=
      fun x hx => hclean x (List.mem_cons_of_mem _ hx)
    have IH := ih (i + 1) u post hclean' hu hfail
    simp only [List.cons_append, List.length_cons]
    rw [show i + (pre'.length + 1) = (i + 1) + pre'.length from by omega]
    by_cases hha : v.hasArk = false
    · rw [runUnits_cons, if_pos hha]
      exact IH
    · rcases hclean v (List.mem_cons_self v pre') with hno | ⟨hup, hpk⟩
      · exact absurd hno hha
      · rw [runUnits_cons, if_neg hha, hup, hpk,
          if_neg (by simp : ¬ (true = false)), if_neg (by simp : ¬ (true = false))]
        obtain ⟨iha, ihb, ihc, ihd⟩ := IH
        refine ⟨iha, ?_, ?_, ?_⟩
        · exact List.mem_cons_of_mem _
            (List.mem_cons_of_mem _ (List.mem_cons_of_mem _ ihb))
        · intro hmem
          simp only [List.mem_cons] at hmem
          rcases hmem with h | h | h | h
          · exact Ev.noConfusion h
          · exact Ev.noConfusion h
          · injection h with h'
            omega
          · exact ihc h
        · intro j hj hmem
          simp only [List.mem_cons] at hmem
          rcases hmem with h | h | h | h
          · injection h with h'
            omega
          · exact Ev.noConfusion h
          · exact Ev.noConfusion h
          · exact ihd j (by omega) h

/-- C2 counterexample: a run whose single archive unit's unpack
invocation fails (tool present, nonzero exit) does not continue to
completion and never removes that unit's workspace — the claimed
behaviour is false at this world. -/
theorem c2_counterexample :
    ¬ ((mainModel ⟨true, true, true, [], [⟨true, false, true⟩]⟩).2
          = RunOutcome.completed ∧
        Ev.workspaceRemoved 0 ∈
          (mainModel ⟨true, true, true, [], [⟨true, false, true⟩]⟩).1) := by
  decide

/-- C2 (corrected): when a discovered unit's unpack invocation fails,
the raised error propagates out of `main` (no handler exists around
`extract_ark`): the run crashes, the failing unit's unpack attempt is
the last unit event, its workspace is never removed, and no later unit
is processed.  (Units before it must have been passed cleanly for
control to reach it.) -/
theorem c2_unpack_failure_aborts (w : World) (pre post : List UnitCase)
    (u : UnitCase)
    (hmain : w.mainFolderExists = true)
    (hunits : w.units = pre ++ u :: post)
    (hclean : ∀ v ∈ pre, unitClean w v)
    (hu : u.hasArk = true)
    (hfail : (w.arkhelperPresent && u.unpackExitOk) = false) :
    (mainModel w).2 = RunOutcome.crashed ∧
    Ev.unpackAttempt pre.length ∈ (mainModel w).1 ∧
    Ev.workspaceRemoved pre.length ∉ (mainModel w).1 ∧
    ∀ j, pre.length < j → Ev.unpackAttempt j ∉ (mainModel w).1 := by
  obtain ⟨h2, hin, hnrem, hnup⟩ := runUnits_fail w pre 0 u post hclean hu hfail
  simp only [Nat.zero_add] at h2 hin hnrem hnup
  simp only [mainModel]
  rw [if_neg (by simp [hmain]), hunits, h2, if_pos rfl]
  refine ⟨rfl, List.mem_append_right _ hin, ?_, ?_⟩
  · intro hmem
    rcases List.mem_append.mp hmem with h | h
    · exact workspaceRemoved_not_in_isoEvents w _ h
    · exact hnrem h
  · intro j hj hmem
    rcases List.mem_append.mp hmem with h | h
    · exact unpackAttempt_not_in_isoEvents w _ h
    · exact hnup j hj h

/-- C2 witness: the single-unit world with a failing unpack crashes,
keeps the attempt in its trace, and never removes workspace 0. -/
theorem c2_unpack_failure_aborts_witness :
    ((⟨true, false, true⟩ : UnitCase).hasArk = true ∧
      ((⟨true, true, true, [], [⟨true, false, true⟩]⟩ : World).arkhelperPresent
          && (⟨true, false, true⟩ : UnitCase).unpackExitOk) = false) ∧
      ((mainModel ⟨true, true, true, [], [⟨true, false, true⟩]⟩).2
          = RunOutcome.crashed ∧
        Ev.unpackAttempt 0 ∈
          (mainModel ⟨true, true, true, [], [⟨true, false, true⟩]⟩).1 ∧
        Ev.workspaceRemoved 0 ∉
          (mainModel ⟨true, true, true, [], [⟨true, false, true⟩]⟩).1 ∧
        ∀ j, 0 < j → Ev.unpackAttempt j ∉
          (mainModel ⟨true, true, true, [], [⟨true, false, true⟩]⟩).1) :=
  ⟨⟨rfl, rfl⟩,
    c2_unpack_failure_aborts ⟨true, true, true, [], [⟨true, false, true⟩]⟩
      [] [] ⟨true, false, true⟩ rfl rfl (by simp) rfl rfl⟩

/-- C9 counterexample: with the main folder present but every external
binary absent, the run does not stop at a precondition check: it starts
processing (the trace is nonempty) and then crashes mid-run at the
first unit. -/
theorem c9_counterexample :
    (⟨true, false, false, [], [⟨true, true, true⟩]⟩ : World).arkhelperPresent
        = false ∧
      (mainModel ⟨true, false, false, [], [⟨true, true, true⟩]⟩).1 ≠ [] ∧
      (mainModel ⟨true, false, false, [], [⟨true, true, true⟩]⟩).2
        = RunOutcome.crashed := by
  decide

/-- C9 (corrected): the only fatal check performed before processing is
that the main folder exists; no tool-binary existence check is made.
A run with no archive units never crashes whatever binaries are absent
(disc-image and per-asset failures are contained), while a missing
archive tool surfaces only at its first use inside the unit loop,
crashing the run from the middle of processing. -/
theorem c9_no_tool_precondition_check :
    (∀ w : World, w.mainFolderExists = false →
      mainModel w = ([], RunOutcome.earlyExit)) ∧
    (∀ w : World, w.mainFolderExists = true → w.units = [] →
      (mainModel w).2 = RunOutcome.completed) ∧
    (∀ w : World, w.mainFolderExists = true → w.arkhelperPresent = false →
      (∃ u ∈ w.units, u.hasArk = true) →
      (mainModel w).2 = RunOutcome.crashed ∧
        ∃ i, Ev.unpackAttempt i ∈ (mainModel w).1) := by
  refine ⟨?_, ?_, ?_⟩
  · intro w h
    simp [mainModel, h]
  · intro w h hu
    simp only [mainModel, hu]
    rw [if_neg (by simp [h])]
    simp [runUnits]
  · intro w h hark hex
    have key : ∀ (us : List UnitCase) (i : ℕ), (∃ u ∈ us, u.hasArk = true) →
        (runUnits w i us).2 = true ∧
          ∃ k, Ev.unpackAttempt k ∈ (runUnits w i us).1 := by
      intro us
      induction us with
      | nil =>
        rintro i ⟨u, hu, _⟩
        exact absurd hu (List.not_mem_nil u)
      | cons v rest ih =>
        intro i hex
        rw [runUnits_cons]
        by_cases hv : v.hasArk = false
        · rw [if_pos hv]
          obtain ⟨u, hu, hua⟩ := hex
          rcases List.mem_cons.mp hu with rfl | hmem
          · rw [hua] at hv
            exact absurd hv (by simp)
          · exact ih (i + 1) ⟨u, hmem, hua⟩
        · rw [if_neg hv, hark, Bool.false_and, if_pos rfl]
          exact ⟨rfl, i, by simp⟩
    have H := key w.units 0 hex
    simp only [mainModel]
    rw [if_neg (by simp [h]), H.1, if_pos rfl]
    obtain ⟨k, hk⟩ := H.2
    exact ⟨rfl, k, List.mem_append_right _ hk⟩

/-- C9 witness: a world with the main folder, a missing archive tool
and one real unit crashes mid-processing with an unpack attempt in its
trace. -/
theorem c9_no_tool_precondition_check_witness :
    ((⟨true, false, true, [], [⟨true, true, true⟩]⟩ : World).mainFolderExists
          = true ∧
        (⟨true, false, true, [], [⟨true, true, true⟩]⟩ : World).arkhelperPresent
          = false) ∧
      ((mainModel ⟨true, false, true, [], [⟨true, true, true⟩]⟩).2
          = RunOutcome.crashed ∧
        ∃ i, Ev.unpackAttempt i ∈
          (mainModel ⟨true, false, true, [], [⟨true, true, true⟩]⟩).1) :=
  ⟨⟨rfl, rfl⟩,
    c9_no_tool_precondition_check.2.2
      ⟨true, false, true, [], [⟨true, true, true⟩]⟩ rfl rfl
      ⟨⟨true, true, true⟩, by simp, rfl⟩⟩
